import Mathlib

/-!
Verification development for the semantic-analysis core of the angel-lsp
language server: symbol table insertion/lookup, the type-compatibility
engine (isTypeMatch and its helpers), and the overload resolver
(checkFunctionMatch).

Modeling conventions (shallow embedding of the TypeScript source):
* JavaScript object identity (`===`) on declaration objects is modeled by
  equality of the declaration's anchoring token (`declaredPlace`): each
  declaration object is anchored by one unique token, and the source itself
  tests `srcType.declaredPlace === destType.declaredPlace` for "same type".
  Tokens carry a numeric `uid` so that two distinct declarations with the
  same text remain distinct.
* The mutable diagnostic sink (`diagnostic.addError`) and the per-scope
  append-only `referencedList` are modeled as effect logs returned by each
  function, in emission order.
* JS `Map` objects are modeled as association lists with `Map.get`/`Map.set`
  semantics (`set` replaces in place, preserving all other keys).
* `undefined` is modeled by `Option.none`; out-of-range array indexing
  (which yields `undefined` in JS) is modeled with `List.get?`.
* A scope's `parentScope` back-reference and its `completionHints` log are
  omitted: no function embedded here reads them.  Of a scope's `ownerNode`
  only `ownerNode?.nodeName` is ever consulted, so just that is stored.
-/

namespace AngelLsp

/-- Abstract source location (the payload of `LocationInfo`); only carried
into diagnostics, never inspected. -/
structure Loc where
  uid : Nat
deriving DecidableEq

/-- `ParsingToken`: lexical token with text and location.  `uid` models JS
object identity of the token (distinct token objects have distinct uids). -/
structure ParsingToken where
  uid : Nat
  text : String
  location : Loc
deriving DecidableEq

/-- The `PrimitiveType` string enum. -/
inductive PrimitiveType where
  | template | string | bool | number | void | any | auto
deriving DecidableEq

/-- The subset of `NodeName` tags consulted by the embedded functions. -/
inductive NodeName where
  | Class | Interface | Enum | Func | If
deriving DecidableEq

/-- A class / interface / enum declaration node (`NodeClass` etc.): of the
real AST node, the embedded functions read only its `nodeName` tag and its
`identifier` token.  `uid` models JS object identity of the node. -/
structure DeclNode where
  uid : Nat
  nodeName : NodeName
  identifier : ParsingToken
deriving DecidableEq

/-- `SourceType = NodeEnum | NodeClass | PrimitiveType` (the checkType.ts
version also admits interface nodes, cf. its `NodeName.Interface` test). -/
inductive SourceType where
  | primitive (p : PrimitiveType)
  | node (n : DeclNode)
deriving DecidableEq

/-- `isSourcePrimitiveType` (typeof === 'string'). -/
def isSourcePrimitiveType : SourceType → Bool
  | .primitive _ => true
  | .node _ => false

/-- A function parameter in `NodeFunc.paramList`: its identifier token (JS
`identifier?`) and whether a `defaultExpr` is present. -/
structure NodeParam where
  identifier : Option ParsingToken
  hasDefaultExpr : Bool
deriving DecidableEq

/-- `NodeFunc`: of the declaration node, the embedded functions read only
`paramList`. -/
structure NodeFunc where
  paramList : List NodeParam
deriving DecidableEq

mutual

/-- `SymbolicType` (checkType.ts version): declared place, `sourceType`,
and the immediate `baseList` used for inheritance checks. -/
inductive SymbolicTypeData : Type where
  | mk (declaredPlace : ParsingToken) (sourceType : SourceType)
       (baseList : Option (List (Option DeducedType)))

/-- `SymbolicFunction`: declared place, source node, return type,
parameter types and the singly-linked overload chain. -/
inductive SymbolicFunctionData : Type where
  | mk (declaredPlace : ParsingToken) (sourceNode : NodeFunc)
       (returnType : Option DeducedType)
       (parameterTypes : List (Option DeducedType))
       (nextOverload : Option SymbolicFunctionData)

/-- The union `SymbolicType | SymbolicFunction` stored in
`DeducedType.symbolType`. -/
inductive TypeOrFunc : Type where
  | type (t : SymbolicTypeData)
  | func (f : SymbolicFunctionData)

/-- `DeducedType`: a symbol, the scope it came from, and an optional
template-translation map (identity-keyed by the template parameter's
declaring token). -/
inductive DeducedType : Type where
  | mk (symbolType : TypeOrFunc) (sourceScope : Option SymbolScope)
       (templateTranslate : Option (List (ParsingToken × Option DeducedType)))

/-- `SymbolicObject = SymbolicType | SymbolicFunction | SymbolicVariable`. -/
inductive SymbolicObject : Type where
  | typeSym (t : SymbolicTypeData)
  | funcSym (f : SymbolicFunctionData)
  | varSym (declaredPlace : ParsingToken) (varType : Option DeducedType)

/-- `SymbolScope`: owner node (only its `nodeName` is ever consulted),
child scopes and the symbol map. -/
inductive SymbolScope : Type where
  | mk (ownerNodeName : Option NodeName)
       (childScopes : List (String × SymbolScope))
       (symbolMap : List (String × SymbolicObject))

end

/-- The identity-keyed `TemplateTranslation` map. -/
abbrev TemplateTranslation := List (ParsingToken × Option DeducedType)

def SymbolicTypeData.declaredPlace : SymbolicTypeData → ParsingToken
  | .mk d _ _ => d

def SymbolicTypeData.sourceType : SymbolicTypeData → SourceType
  | .mk _ s _ => s

def SymbolicTypeData.baseList : SymbolicTypeData → Option (List (Option DeducedType))
  | .mk _ _ b => b

def SymbolicFunctionData.declaredPlace : SymbolicFunctionData → ParsingToken
  | .mk d _ _ _ _ => d

def SymbolicFunctionData.sourceNode : SymbolicFunctionData → NodeFunc
  | .mk _ s _ _ _ => s

def SymbolicFunctionData.returnType : SymbolicFunctionData → Option DeducedType
  | .mk _ _ r _ _ => r

def SymbolicFunctionData.parameterTypes : SymbolicFunctionData → List (Option DeducedType)
  | .mk _ _ _ p _ => p

def SymbolicFunctionData.nextOverload : SymbolicFunctionData → Option SymbolicFunctionData
  | .mk _ _ _ _ n => n

def TypeOrFunc.declaredPlace : TypeOrFunc → ParsingToken
  | .type t => t.declaredPlace
  | .func f => f.declaredPlace

def DeducedType.symbolType : DeducedType → TypeOrFunc
  | .mk s _ _ => s

def DeducedType.sourceScope : DeducedType → Option SymbolScope
  | .mk _ s _ => s

def DeducedType.templateTranslate : DeducedType → Option TemplateTranslation
  | .mk _ _ t => t

def SymbolicObject.declaredPlace : SymbolicObject → ParsingToken
  | .typeSym t => t.declaredPlace
  | .funcSym f => f.declaredPlace
  | .varSym d _ => d

/-- `symbol.symbolKind === SymbolKind.Function`. -/
def SymbolicObject.isFunctionKind : SymbolicObject → Bool
  | .funcSym _ => true
  | _ => false

def SymbolScope.ownerNodeName : SymbolScope → Option NodeName
  | .mk o _ _ => o

def SymbolScope.childScopes : SymbolScope → List (String × SymbolScope)
  | .mk _ c _ => c

def SymbolScope.symbolMap : SymbolScope → List (String × SymbolicObject)
  | .mk _ _ m => m

/-- A diagnostic pushed by `diagnostic.addError(location, message)`. -/
structure Diagnostic where
  location : Loc
  message : String
deriving DecidableEq

/-! ## Maps (JS `Map` get/set semantics on association lists) -/

abbrev SymbolMap := List (String × SymbolicObject)

/-- `map.get(key)`. -/
def mapGet (map : SymbolMap) (key : String) : Option SymbolicObject :=
  match map with
  | [] => none
  | e :: rest => if e.1 == key then some e.2 else mapGet rest key

/-- `map.set(key, value)`: replaces the existing entry in place, or appends. -/
def mapSet (map : SymbolMap) (key : String) (value : SymbolicObject) : SymbolMap :=
  match map with
  | [] => [(key, value)]
  | e :: rest =>
    if e.1 == key then (key, value) :: rest
    else e :: mapSet rest key value

/-- `templateTranslate.has(k) ? some (templateTranslate.get(k)) : none`
(JS `Map` keyed by token object identity). -/
def tmFind (templateTranslate : TemplateTranslation) (key : ParsingToken) :
    Option (Option DeducedType) :=
  (templateTranslate.find? (fun e => e.1 == key)).map (fun e => e.2)

/-! ## Scope & symbol table -/

/-- Append `symbol` at the tail of the overload chain headed by `hit`
(the in-place `cursor.nextOverload = symbol` loop of
`insertSymbolicObject`, expressed functionally). -/
def appendOverload (hit newSym : SymbolicFunctionData) : SymbolicFunctionData :=
  match hit with
  | .mk d s r p none => .mk d s r p (some newSym)
  | .mk d s r p (some next) => .mk d s r p (some (appendOverload next newSym))

/-- Result of `insertSymbolicObject`: the (possibly updated) map, the
diagnostics emitted, and the boolean return value. -/
structure InsertResult where
  map : SymbolMap
  diagnostics : List Diagnostic
  ok : Bool

/-- `insertSymbolicObject(map, symbol)`.  The duplicate-definition message
is modeled without the quote characters around the identifier. -/
def insertSymbolicObject (map : SymbolMap) (symbol : SymbolicObject) : InsertResult :=
  let identifier := symbol.declaredPlace.text
  match mapGet map identifier with
  | none => ⟨mapSet map identifier symbol, [], true⟩
  | some hit =>
    match symbol, hit with
    | .funcSym f, .funcSym g =>
      ⟨mapSet map identifier (.funcSym (appendOverload g f)), [], true⟩
    | _, _ =>
      ⟨map,
       [⟨symbol.declaredPlace.location,
         "Symbol " ++ identifier ++ " is already defined 💢"⟩],
       false⟩

/-- `findSymbolShallowly(scope, identifier)`. -/
def findSymbolShallowly (scope : SymbolScope) (identifier : String) :
    Option SymbolicObject :=
  mapGet scope.symbolMap identifier

/-- Modelled from the spec: `findScopeShallowly` lives in scope.ts, which is
not among the provided sources; per §4.1 it is the "analogous shallow scope
lookup (by child-scope name)" on a scope's child-scope map. -/
def findScopeShallowly (scope : SymbolScope) (identifier : String) :
    Option SymbolScope :=
  ((scope.childScopes).find? (fun e => e.1 == identifier)).map (fun e => e.2)

/-- `resolveTemplateType(templateTranslate, arg)`: one substitution step —
if `arg`'s declaring token is a key of the map, return the bound value
(possibly absent), else `arg` unchanged. -/
def resolveTemplateType (templateTranslate : TemplateTranslation)
    (arg : Option DeducedType) : Option DeducedType :=
  match arg with
  | some a =>
    match tmFind templateTranslate a.symbolType.declaredPlace with
    | some v => v
    | none => arg
  | none => arg

/-! ## Type compatibility engine (checkType.ts) -/

/-- `canCastStatically(srcNode, destNode, srcType, destType)`: if the source
node is a class or interface, succeed when some entry of the source's
immediate `baseList` is (reference-)identical to the destination symbol. -/
def canCastStatically (srcNode : DeclNode) (destNode : SourceType)
    (srcType destType : SymbolicTypeData) : Bool :=
  if srcNode.nodeName = NodeName.Class ∨ srcNode.nodeName = NodeName.Interface then
    match srcType.baseList with
    | none => false
    | some baseList =>
      baseList.any (fun srcBase =>
        match srcBase with
        | some b => b.symbolType.declaredPlace == destType.declaredPlace
        | none => false)
  else false

/-- `canCastFromPrimitiveType(srcType, destType)`: the primitive matrix.
Only invoked with a primitive-tagged source (the `.node` row is unreachable,
mirroring the exhaustive TS switch whose default asserts). -/
def canCastFromPrimitiveType (srcType destType : SymbolicTypeData) : Bool :=
  match srcType.sourceType with
  | .primitive .template =>
    (destType.sourceType == .primitive .template)
      && (srcType.declaredPlace == destType.declaredPlace)
  | .primitive .string =>
    let destName := destType.declaredPlace.text
    (destName == "string") || (destName == "String")
  | .primitive .void => false
  | .primitive .number => destType.sourceType == .primitive .number
  | .primitive .bool => destType.sourceType == .primitive .bool
  | .primitive .any => true
  | .primitive .auto => true
  | .node _ => false

/-- `canConstructBy(constructor, srcType)`: some overload in the chain has
exactly one parameter whose declared `sourceType` is identical to the
source's. -/
def canConstructBy (ctor : SymbolicFunctionData) (srcType : SourceType) : Bool :=
  match ctor with
  | .mk _ _ _ parameterTypes nextOverload =>
    let firstMatches : Bool :=
      match parameterTypes with
      | [paramType] =>
        match paramType with
        | some pt =>
          match pt.symbolType with
          | .type t => t.sourceType == srcType
          | .func _ => false
        | none => false
      | _ => false
    if firstMatches then true
    else
      match nextOverload with
      | some next => canConstructBy next srcType
      | none => false

/-- `canConstructImplicitly(srcType, destScope, destIdentifier)`: find the
destination's own nested scope by name, require a class owner, find the
same-named constructor symbol there, and defer to `canConstructBy`. -/
def canConstructImplicitly (srcType : SymbolicTypeData)
    (destScope : Option SymbolScope) (destIdentifier : String) : Bool :=
  match destScope with
  | none => false
  | some ds =>
    match findScopeShallowly ds destIdentifier with
    | none => false
    | some constructorScope =>
      if constructorScope.ownerNodeName ≠ some NodeName.Class then false
      else
        match findSymbolShallowly constructorScope destIdentifier with
        | some (.funcSym ctor) => canConstructBy ctor srcType.sourceType
        | _ => false

/-- The self-resolution step at the top of `isTypeMatch`: substitute a side
through its own `templateTranslate` when present. -/
def resolveSelf (a : DeducedType) : Option DeducedType :=
  match a.templateTranslate with
  | some tt => resolveTemplateType tt (some a)
  | none => some a

theorem tmFind_sizeOf {tt : TemplateTranslation} {k : ParsingToken}
    {v : Option DeducedType} (h : tmFind tt k = some v) : sizeOf v < sizeOf tt := by
  unfold tmFind at h
  cases hf : tt.find? (fun e => e.1 == k) with
  | none => simp [hf] at h
  | some e =>
    simp only [hf, Option.map_some'] at h
    have hv : v = e.2 := (Option.some.inj h).symm
    subst hv
    have hmem : e ∈ tt := List.mem_of_find?_eq_some hf
    have h1 : sizeOf e < sizeOf tt := List.sizeOf_lt_of_mem hmem
    obtain ⟨e1, e2⟩ := e
    simp only [Prod.mk.sizeOf_spec] at h1
    show sizeOf e2 < sizeOf tt
    omega

theorem resolveSelf_sizeOf' {a b : DeducedType} (h : resolveSelf a = some b) :
    sizeOf b ≤ sizeOf a := by
  obtain ⟨st, sc, tto⟩ := a
  unfold resolveSelf at h
  cases tto with
  | none =>
    simp only [DeducedType.templateTranslate] at h
    cases h
    exact Nat.le_refl _
  | some tt =>
    simp only [DeducedType.templateTranslate, resolveTemplateType] at h
    cases hf : tmFind tt (DeducedType.symbolType (.mk st sc (some tt))).declaredPlace with
    | none =>
      rw [hf] at h
      cases h
      exact Nat.le_refl _
    | some v =>
      rw [hf] at h
      subst h
      have h1 : sizeOf (some b) < sizeOf tt := tmFind_sizeOf hf
      simp only [DeducedType.mk.sizeOf_spec, Option.some.sizeOf_spec] at *
      omega

theorem resolveSelf_size_le (a : DeducedType) :
    sizeOf (resolveSelf a) ≤ 1 + sizeOf a := by
  cases h : resolveSelf a with
  | none => simp
  | some b =>
    have := resolveSelf_sizeOf' h
    simp only [Option.some.sizeOf_spec]
    omega

mutual

/-- `isTypeMatch(src, dest)`: absent sides are compatible; both sides are
self-resolved through their own `templateTranslate`; then the internal
matcher decides (the `return true` rows for a side that resolved to absent
live in `isTypeMatchResolved`). -/
def isTypeMatch (src dest : Option DeducedType) : Bool :=
  match src, dest with
  | none, _ => true
  | _, none => true
  | some s, some d => isTypeMatchResolved (resolveSelf s) (resolveSelf d)
termination_by 2 * (sizeOf src + sizeOf dest) + 1
decreasing_by
  have h1 := resolveSelf_size_le s
  have h2 := resolveSelf_size_le d
  simp only [Option.some.sizeOf_spec]
  omega

/-- The `if (resolvedSrc === undefined || resolvedDest === undefined)
return true` step of `isTypeMatch`, followed by the internal matcher. -/
def isTypeMatchResolved (resolvedSrc resolvedDest : Option DeducedType) : Bool :=
  match resolvedSrc, resolvedDest with
  | none, _ => true
  | _, none => true
  | some rs, some rd => isTypeMatchInternal rs rd
termination_by 2 * (sizeOf resolvedSrc + sizeOf resolvedDest)
decreasing_by
  simp only [Option.some.sizeOf_spec]
  omega

/-- `isTypeMatchInternal(src, dest)`: function-handler check, then
Any/Auto destination, then the primitive matrix or identity/inheritance,
then the implicit-constructor fallback for class destinations. -/
def isTypeMatchInternal (src dest : DeducedType) : Bool :=
  match src, dest with
  | .mk srcType _ _, .mk destType destScope _ =>
    match srcType with
    | .func sf => isFunctionHandlerMatch sf destType
    | .type st =>
      match destType with
      | .func _ => false
      | .type dt =>
        if dt.sourceType = .primitive .any ∨ dt.sourceType = .primitive .auto then
          true
        else
          let earlyOk : Bool :=
            match st.sourceType with
            | .primitive _ => canCastFromPrimitiveType st dt
            | .node sn =>
              (st.declaredPlace == dt.declaredPlace)
                || canCastStatically sn dt.sourceType st dt
          if earlyOk then true
          else
            match dt.sourceType with
            | .primitive _ => false
            | .node dn =>
              if dn.nodeName ≠ NodeName.Class then false
              else canConstructImplicitly st destScope dn.identifier.text
termination_by 2 * (sizeOf src + sizeOf dest) + 1

/-- `isFunctionHandlerMatch(srcType, destType)`: destination must also be a
function, return types compatible, parameter counts equal and each
parameter position pairwise compatible. -/
def isFunctionHandlerMatch (srcType : SymbolicFunctionData) (destType : TypeOrFunc) : Bool :=
  match destType with
  | .type _ => false
  | .func destF =>
    match srcType, destF with
    | .mk _ _ srcRet srcParams _, .mk _ _ destRet destParams _ =>
      if isTypeMatch srcRet destRet = false then false
      else if srcParams.length ≠ destParams.length then false
      else paramPairsMatch srcParams destParams
termination_by 2 * (sizeOf srcType + sizeOf destType) + 1

/-- The per-index loop at the end of `isFunctionHandlerMatch` (parameter
lists have equal length when this is reached). -/
def paramPairsMatch : List (Option DeducedType) → List (Option DeducedType) → Bool
  | a :: as, b :: bs =>
    if isTypeMatch a b = false then false else paramPairsMatch as bs
  | _, _ => true
termination_by as bs => 2 * (sizeOf as + sizeOf bs)

end

/-! ## Overload resolver (checkFunctionMatch and helpers) -/

/-- `NodeFuncCall | NodeConstructCall`: the call-site identifier token
(`identifier` resp. `type.dataType.identifier`), the whole call's
`nodeRange`, and each argument's `assign.nodeRange` in order. -/
inductive CallerNode where
  | funcCall (identifier : ParsingToken) (nodeRange : Loc) (argLocs : List Loc)
  | constructCall (typeIdentifier : ParsingToken) (nodeRange : Loc) (argLocs : List Loc)
deriving DecidableEq

def CallerNode.nodeRange : CallerNode → Loc
  | .funcCall _ r _ => r
  | .constructCall _ r _ => r

def CallerNode.argLocs : CallerNode → List Loc
  | .funcCall _ _ l => l
  | .constructCall _ _ l => l

/-- `getIdentifierInFuncOrConstructor(funcCall)`. -/
def getIdentifierInFuncOrConstructor : CallerNode → ParsingToken
  | .funcCall identifier _ _ => identifier
  | .constructCall typeIdentifier _ _ => typeIdentifier

/-- One `{declaredSymbol, referencedToken}` edge pushed onto
`scope.referencedList` (the pushed symbol is always the callee function). -/
structure ReferencedFunctionInfo where
  declaredSymbol : SymbolicFunctionData
  referencedToken : ParsingToken

/-- Observable outcome of `checkFunctionMatch`: all diagnostics emitted, all
reference edges pushed onto `scope.referencedList`, and the returned type. -/
structure CallResult where
  diagnostics : List Diagnostic
  references : List ReferencedFunctionInfo
  returnType : Option DeducedType

/-- Messages are modeled without the quote characters around interpolated
names.  A missing parameter identifier interpolates as "undefined",
as JS template literals do. -/
def missingArgumentMessage (param : NodeParam) : String :=
  "Missing argument for parameter "
    ++ (match param.identifier with | some t => t.text | none => "undefined")
    ++ " 💢"

def cannotConvertMessage (actualType expectedType : DeducedType) : String :=
  "Cannot convert " ++ actualType.symbolType.declaredPlace.text
    ++ " to parameter type " ++ expectedType.symbolType.declaredPlace.text ++ " 💢"

def tooManyArgumentsMessage (declaredCount suppliedCount : Nat) : String :=
  "Function has " ++ toString declaredCount ++ " parameters, but "
    ++ toString suppliedCount ++ " were provided 💢"

/-- Outcome of the per-parameter `for` loop of `checkFunctionMatch`: either
a restart against the next overload, or the loop ended (normally or via the
missing-argument `break`) with the accumulated diagnostics. -/
inductive ParamLoopOutcome where
  | retry (diagnostics : List Diagnostic) (next : SymbolicFunctionData)
  | halted (diagnostics : List Diagnostic)

/-- The `if (templateTranslator !== undefined)` substitution applied to the
actual and expected types in the loop body of `checkFunctionMatch`. -/
def translatedArg (templateTranslator : Option TemplateTranslation)
    (arg : Option DeducedType) : Option DeducedType :=
  match templateTranslator with
  | some tr => resolveTemplateType tr arg
  | none => arg

/-- The body of `checkFunctionMatch`'s `for (let i = 0; ...)` loop over the
callee's declared parameters, from index `i`, with `diags` accumulated. -/
def paramLoop (callerNode : CallerNode) (callerArgs : List (Option DeducedType))
    (calleeFunc : SymbolicFunctionData) (templateTranslator : Option TemplateTranslation)
    (params : List NodeParam) (i : Nat) (diags : List Diagnostic) : ParamLoopOutcome :=
  match params with
  | [] => .halted diags
  | param :: rest =>
    if i ≥ callerArgs.length ∧ param.hasDefaultExpr = false then
      -- missing caller argument with no default expression
      match calleeFunc.nextOverload with
      | some next => .retry diags next
      | none =>
        -- report and `break`: the loop ends here, later parameters unchecked
        .halted (diags ++ [⟨callerNode.nodeRange, missingArgumentMessage param⟩])
    else
      let actualType := translatedArg templateTranslator (callerArgs.getD i none)
      let expectedType := translatedArg templateTranslator (calleeFunc.parameterTypes.getD i none)
      match actualType, expectedType with
      | none, _ => paramLoop callerNode callerArgs calleeFunc templateTranslator rest (i + 1) diags
      | _, none => paramLoop callerNode callerArgs calleeFunc templateTranslator rest (i + 1) diags
      | some a, some e =>
        if isTypeMatch (some a) (some e) then
          paramLoop callerNode callerArgs calleeFunc templateTranslator rest (i + 1) diags
        else
          match calleeFunc.nextOverload with
          | some next => .retry diags next
          | none =>
            paramLoop callerNode callerArgs calleeFunc templateTranslator rest (i + 1)
              (diags ++ [⟨callerNode.argLocs.getD i ⟨0⟩, cannotConvertMessage a e⟩])

theorem sizeOf_nextOverload {f next : SymbolicFunctionData}
    (h : f.nextOverload = some next) : sizeOf next < sizeOf f := by
  obtain ⟨d, s, r, p, n⟩ := f
  simp only [SymbolicFunctionData.nextOverload] at h
  subst h
  simp only [SymbolicFunctionData.mk.sizeOf_spec, Option.some.sizeOf_spec]
  omega

theorem paramLoop_retry {callerNode callerArgs calleeFunc templateTranslator}
    {params : List NodeParam} {i : Nat} {diags ds : List Diagnostic}
    {next : SymbolicFunctionData}
    (h : paramLoop callerNode callerArgs calleeFunc templateTranslator params i diags
          = .retry ds next) :
    calleeFunc.nextOverload = some next := by
  induction params generalizing i diags with
  | nil => simp [paramLoop] at h
  | cons param rest ih =>
    unfold paramLoop at h
    split at h
    · split at h
      · cases h; assumption
      · cases h
    · dsimp only at h
      split at h
      · exact ih h
      · exact ih h
      · split at h
        · exact ih h
        · split at h
          · cases h; assumption
          · exact ih h

mutual

/-- `checkFunctionMatch(args)`. -/
def checkFunctionMatch (callerNode : CallerNode) (callerArgs : List (Option DeducedType))
    (calleeFunc : SymbolicFunctionData) (templateTranslator : Option TemplateTranslation) :
    CallResult :=
  let calleeParams := calleeFunc.sourceNode.paramList
  if callerArgs.length > calleeParams.length then
    handleTooMuchCallerArgs callerNode callerArgs calleeFunc templateTranslator
  else
    match hloop : paramLoop callerNode callerArgs calleeFunc templateTranslator
        calleeParams 0 [] with
    | .retry ds next =>
      let r := checkFunctionMatch callerNode callerArgs next templateTranslator
      ⟨ds ++ r.diagnostics, r.references, r.returnType⟩
    | .halted ds =>
      -- pushReferenceOfFuncOrConstructor, then return the callee's return type
      ⟨ds, [⟨calleeFunc, getIdentifierInFuncOrConstructor callerNode⟩],
       calleeFunc.returnType⟩
termination_by 2 * sizeOf calleeFunc + 1
decreasing_by
  · omega
  · have hnext := paramLoop_retry hloop
    have := sizeOf_nextOverload hnext
    omega

/-- `handleTooMuchCallerArgs(args)`. -/
def handleTooMuchCallerArgs (callerNode : CallerNode)
    (callerArgs : List (Option DeducedType)) (calleeFunc : SymbolicFunctionData)
    (templateTranslator : Option TemplateTranslation) : CallResult :=
  match hn : calleeFunc.nextOverload with
  | some next => checkFunctionMatch callerNode callerArgs next templateTranslator
  | none =>
    ⟨[⟨callerNode.nodeRange,
       tooManyArgumentsMessage calleeFunc.sourceNode.paramList.length callerArgs.length⟩],
     [⟨calleeFunc, getIdentifierInFuncOrConstructor callerNode⟩],
     calleeFunc.returnType⟩
termination_by 2 * sizeOf calleeFunc
decreasing_by
  have := sizeOf_nextOverload hn
  omega

end

/-! ## Derived views of overload chains and map lemmas -/

/-- `f` with its `nextOverload` field replaced by `n`. -/
def withNext (f : SymbolicFunctionData) (n : Option SymbolicFunctionData) :
    SymbolicFunctionData :=
  match f with
  | .mk d s r p _ => .mk d s r p n

/-- All fields of an overload node except the chain link. -/
def payload (f : SymbolicFunctionData) :
    ParsingToken × NodeFunc × Option DeducedType × List (Option DeducedType) :=
  (f.declaredPlace, f.sourceNode, f.returnType, f.parameterTypes)

/-- The nodes of an overload chain, head first. -/
def overloadChain : SymbolicFunctionData → List SymbolicFunctionData
  | .mk d s r p none => [.mk d s r p none]
  | .mk d s r p (some n) => .mk d s r p (some n) :: overloadChain n

/-- The payloads along an overload chain, head first. -/
def chainPayloads : SymbolicFunctionData →
    List (ParsingToken × NodeFunc × Option DeducedType × List (Option DeducedType))
  | .mk d s r p none => [(d, s, r, p)]
  | .mk d s r p (some n) => (d, s, r, p) :: chainPayloads n

theorem chainPayloads_appendOverload (g f : SymbolicFunctionData) :
    chainPayloads (appendOverload g f) = chainPayloads g ++ chainPayloads f := by
  induction g using chainPayloads.induct with
  | case1 d s r p => simp [appendOverload, chainPayloads]
  | case2 d s r p n ih => simp [appendOverload, chainPayloads, ih]

theorem mapGet_mapSet_self (map : SymbolMap) (key : String) (value : SymbolicObject) :
    mapGet (mapSet map key value) key = some value := by
  induction map with
  | nil => simp [mapGet, mapSet]
  | cons e rest ih =>
    by_cases h : e.1 = key
    · simp [mapGet, mapSet, h]
    · simp [mapGet, mapSet, h, ih]

theorem mapGet_mapSet_ne (map : SymbolMap) (key : String) (value : SymbolicObject)
    (key' : String) (h : key' ≠ key) :
    mapGet (mapSet map key value) key' = mapGet map key' := by
  induction map with
  | nil => simp [mapGet, mapSet, Ne.symm h]
  | cons e rest ih =>
    by_cases he : e.1 = key
    · simp [mapGet, mapSet, he, Ne.symm h]
    · by_cases h2 : e.1 = key'
      · simp [mapGet, mapSet, he, h2, h]
      · simp [mapGet, mapSet, he, h2, ih]

/-! ## Concrete fixtures for witnesses and counterexamples -/

def fxTok (n : Nat) (s : String) : ParsingToken := ⟨n, s, ⟨n⟩⟩

def fxInt : SymbolicTypeData := .mk (fxTok 2 "int") (.primitive .number) none

def fxBool : SymbolicTypeData := .mk (fxTok 3 "bool") (.primitive .bool) none

def fxString : SymbolicTypeData := .mk (fxTok 4 "string") (.primitive .string) none

def fxAny : SymbolicTypeData := .mk (fxTok 5 "?") (.primitive .any) none

def fxDeduced (t : SymbolicTypeData) : DeducedType := .mk (.type t) none none

def fxVarOld : SymbolicObject := .varSym (fxTok 10 "v") none

def fxVarNew : SymbolicObject := .varSym (fxTok 11 "v") none

def fxDupMap : SymbolMap := [("v", fxVarOld)]

def fxF1 : SymbolicFunctionData :=
  .mk (fxTok 201 "f") ⟨[⟨some (fxTok 205 "a"), false⟩]⟩
    (some (fxDeduced fxBool)) [some (fxDeduced fxInt)] none

def fxF2 : SymbolicFunctionData :=
  .mk (fxTok 202 "f") ⟨[⟨some (fxTok 206 "a"), false⟩, ⟨some (fxTok 207 "b"), false⟩]⟩
    (some (fxDeduced fxInt)) [some (fxDeduced fxInt), some (fxDeduced fxInt)] none

def fxF3 : SymbolicFunctionData :=
  .mk (fxTok 203 "f")
    ⟨[⟨some (fxTok 208 "a"), false⟩, ⟨some (fxTok 209 "b"), false⟩, ⟨some (fxTok 210 "c"), false⟩]⟩
    (some (fxDeduced fxString))
    [some (fxDeduced fxInt), some (fxDeduced fxInt), some (fxDeduced fxInt)] none

def fxFMap : SymbolMap := [("f", .funcSym fxF1)]

/-! ## C9: duplicate definition versus overload append -/

/-- C9: `insertSymbolicObject` on a non-Function symbol whose identifier is
already bound emits exactly one duplicate-definition diagnostic at the new
symbol's declared location and returns false; when both the existing entry
and the new symbol are Functions it emits no diagnostic, appends the new
symbol at the tail of the existing overload chain, and returns true. -/
theorem claim_C9_duplicate_definition (map : SymbolMap) (symbol : SymbolicObject)
    (hit : SymbolicObject) (hhit : mapGet map symbol.declaredPlace.text = some hit) :
    (symbol.isFunctionKind = false →
      insertSymbolicObject map symbol =
        ⟨map,
         [⟨symbol.declaredPlace.location,
           "Symbol " ++ symbol.declaredPlace.text ++ " is already defined 💢"⟩],
         false⟩)
    ∧ (∀ f g, symbol = .funcSym f → hit = .funcSym g →
        insertSymbolicObject map symbol =
          ⟨mapSet map symbol.declaredPlace.text (.funcSym (appendOverload g f)),
           [], true⟩) := by
  constructor
  · intro hnf
    cases symbol with
    | funcSym f => simp [SymbolicObject.isFunctionKind] at hnf
    | typeSym t =>
      cases hit with
      | funcSym g => simp [insertSymbolicObject, hhit]
      | typeSym t2 => simp [insertSymbolicObject, hhit]
      | varSym d v => simp [insertSymbolicObject, hhit]
    | varSym d v =>
      cases hit with
      | funcSym g => simp [insertSymbolicObject, hhit]
      | typeSym t2 => simp [insertSymbolicObject, hhit]
      | varSym d2 v2 => simp [insertSymbolicObject, hhit]
  · intro f g hf hg
    subst hf
    subst hg
    simp [insertSymbolicObject, hhit]

/-- Witness for C9 at concrete inputs: a second variable named `v` fails
with one diagnostic; a second function named `f` chains with none. -/
theorem claim_C9_witness :
    insertSymbolicObject fxDupMap fxVarNew =
      ⟨fxDupMap, [⟨(fxTok 11 "v").location, "Symbol v is already defined 💢"⟩], false⟩
    ∧ insertSymbolicObject fxFMap (.funcSym fxF2) =
      ⟨[("f", .funcSym (appendOverload fxF1 fxF2))], [], true⟩ := by
  constructor
  · have h := (claim_C9_duplicate_definition fxDupMap fxVarNew fxVarOld
      (by simp [mapGet, fxDupMap, fxVarNew, fxVarOld, SymbolicObject.declaredPlace, fxTok])).1
      (by simp [fxVarNew, SymbolicObject.isFunctionKind])
    simpa [fxVarNew, SymbolicObject.declaredPlace, fxTok] using h
  · have h := (claim_C9_duplicate_definition fxFMap (.funcSym fxF2) (.funcSym fxF1)
      (by simp [mapGet, fxFMap, fxF2, SymbolicObject.declaredPlace,
                SymbolicFunctionData.declaredPlace, fxTok])).2 fxF2 fxF1 rfl rfl
    simpa [fxF2, SymbolicObject.declaredPlace, SymbolicFunctionData.declaredPlace,
           fxTok, mapSet, fxFMap] using h

/-! ## C10: frame property of insertSymbolicObject -/

/-- C10: when `insertSymbolicObject` returns false the map is completely
unchanged; when it succeeds by overload-appending, every other key is
unchanged and the binding for the identifier is the old chain with the new
symbol grafted at the tail (all payloads preserved). -/
theorem claim_C10_insert_frame (map : SymbolMap) (symbol : SymbolicObject) :
    ((insertSymbolicObject map symbol).ok = false →
      (insertSymbolicObject map symbol).map = map)
    ∧ (∀ f g, symbol = .funcSym f →
        mapGet map symbol.declaredPlace.text = some (.funcSym g) →
        (∀ key, key ≠ symbol.declaredPlace.text →
          mapGet (insertSymbolicObject map symbol).map key = mapGet map key)
        ∧ mapGet (insertSymbolicObject map symbol).map symbol.declaredPlace.text
            = some (.funcSym (appendOverload g f))
        ∧ chainPayloads (appendOverload g f) = chainPayloads g ++ chainPayloads f) := by
  constructor
  · intro hok
    cases hm : mapGet map symbol.declaredPlace.text with
    | none => simp [insertSymbolicObject, hm] at hok
    | some hit =>
      cases symbol with
      | funcSym f =>
        cases hit with
        | funcSym g => simp [insertSymbolicObject, hm] at hok
        | typeSym t => simp [insertSymbolicObject, hm]
        | varSym d v => simp [insertSymbolicObject, hm]
      | typeSym t => simp [insertSymbolicObject, hm]
      | varSym d v => simp [insertSymbolicObject, hm]
  · intro f g hf hg
    subst hf
    refine ⟨?_, ?_, chainPayloads_appendOverload g f⟩
    · intro key hk
      simp only [insertSymbolicObject, hg]
      exact mapGet_mapSet_ne map _ _ key hk
    · simp only [insertSymbolicObject, hg]
      exact mapGet_mapSet_self map _ _

/-- Witness for C10 at concrete inputs. -/
theorem claim_C10_witness :
    (insertSymbolicObject fxDupMap fxVarNew).map = fxDupMap
    ∧ (mapGet (insertSymbolicObject fxFMap (.funcSym fxF2)).map "f"
        = some (.funcSym (appendOverload fxF1 fxF2))
       ∧ chainPayloads (appendOverload fxF1 fxF2) = chainPayloads fxF1 ++ chainPayloads fxF2
       ∧ mapGet (insertSymbolicObject fxFMap (.funcSym fxF2)).map "g"
        = mapGet fxFMap "g") := by
  refine ⟨?_, ?_, ?_, ?_⟩
  · exact (claim_C10_insert_frame fxDupMap fxVarNew).1
      (by simp [insertSymbolicObject, mapGet, fxDupMap, fxVarNew, fxVarOld,
                SymbolicObject.declaredPlace, fxTok])
  · have h := ((claim_C10_insert_frame fxFMap (.funcSym fxF2)).2 fxF2 fxF1 rfl
      (by simp [mapGet, fxFMap, fxF2, SymbolicObject.declaredPlace,
                SymbolicFunctionData.declaredPlace, fxTok])).2.1
    simpa [fxF2, SymbolicObject.declaredPlace, SymbolicFunctionData.declaredPlace, fxTok]
      using h
  · exact ((claim_C10_insert_frame fxFMap (.funcSym fxF2)).2 fxF2 fxF1 rfl
      (by simp [mapGet, fxFMap, fxF2, SymbolicObject.declaredPlace,
                SymbolicFunctionData.declaredPlace, fxTok])).2.2
  · have h := ((claim_C10_insert_frame fxFMap (.funcSym fxF2)).2 fxF2 fxF1 rfl
      (by simp [mapGet, fxFMap, fxF2, SymbolicObject.declaredPlace,
                SymbolicFunctionData.declaredPlace, fxTok])).1 "g"
      (by simp [fxF2, SymbolicObject.declaredPlace, SymbolicFunctionData.declaredPlace, fxTok])
    exact h

/-! ## C8: absent propagates as compatible -/

/-- C8: for every deduced type `T`, `isTypeMatch(undefined, T)` and
`isTypeMatch(T, undefined)` are both true; and the same holds when either
side, after self-resolving through its own `templateTranslate`, resolves to
absent. -/
theorem claim_C8_absent_propagates :
    (∀ T : Option DeducedType, isTypeMatch none T = true ∧ isTypeMatch T none = true)
    ∧ (∀ s d : DeducedType, resolveSelf s = none → isTypeMatch (some s) (some d) = true)
    ∧ (∀ s d : DeducedType, resolveSelf d = none → isTypeMatch (some s) (some d) = true) := by
  refine ⟨fun T => ⟨by simp [isTypeMatch], ?_⟩, fun s d h => ?_, fun s d h => ?_⟩
  · cases T <;> simp [isTypeMatch]
  · simp [isTypeMatch, h, isTypeMatchResolved]
  · have hu : isTypeMatch (some s) (some d)
        = isTypeMatchResolved (resolveSelf s) (resolveSelf d) := by
      simp [isTypeMatch]
    rw [hu, h]
    cases resolveSelf s <;> simp [isTypeMatchResolved]

/-- An open template type whose own translation map binds its declaring
token to an intentionally unresolved slot: it self-resolves to absent. -/
def fxTplTok : ParsingToken := fxTok 20 "T"

def fxOpenTpl : SymbolicTypeData := .mk fxTplTok (.primitive .template) none

def fxUnresolved : DeducedType := .mk (.type fxOpenTpl) none (some [(fxTplTok, none)])

theorem fxUnresolved_resolves_none : resolveSelf fxUnresolved = none := by
  simp [resolveSelf, resolveTemplateType, tmFind, fxUnresolved,
        DeducedType.templateTranslate, DeducedType.symbolType,
        TypeOrFunc.declaredPlace, SymbolicTypeData.declaredPlace, fxOpenTpl]

/-- Witness for C8 at concrete inputs. -/
theorem claim_C8_witness :
    isTypeMatch none (some (fxDeduced fxInt)) = true
    ∧ isTypeMatch (some (fxDeduced fxInt)) none = true
    ∧ isTypeMatch (some fxUnresolved) (some (fxDeduced fxBool)) = true
    ∧ isTypeMatch (some (fxDeduced fxBool)) (some fxUnresolved) = true :=
  ⟨(claim_C8_absent_propagates.1 _).1, (claim_C8_absent_propagates.1 _).2,
   claim_C8_absent_propagates.2.1 _ _ fxUnresolved_resolves_none,
   claim_C8_absent_propagates.2.2 _ _ fxUnresolved_resolves_none⟩

/-! ## C3: the primitive matrix -/

/-- C3 counterexample: a Number-tagged source is accepted by an Any-tagged
destination whose primitive tag is not Number, so `isTypeMatch` is not
exclusive to Number destinations as the claim states. -/
theorem claim_C3_counterexample :
    fxInt.sourceType = .primitive .number
    ∧ fxAny.sourceType ≠ .primitive .number
    ∧ isTypeMatch (some (fxDeduced fxInt)) (some (fxDeduced fxAny)) = true := by
  refine ⟨rfl, by simp [fxAny, SymbolicTypeData.sourceType], ?_⟩
  simp [isTypeMatch, isTypeMatchResolved, isTypeMatchInternal, resolveSelf,
        fxDeduced, fxInt, fxAny, DeducedType.templateTranslate,
        SymbolicTypeData.sourceType]

/-- C3 amended: the primitive matrix itself (`canCastFromPrimitiveType`) is
exclusive — a Number source passes it exactly for Number-tagged
destinations, Bool likewise, and a String source exactly for destinations
literally named "string" or "String" — and `isTypeMatch` coincides with
the matrix whenever the destination's tag is primitive but not Any/Auto
and neither side carries a `templateTranslate`. -/
theorem claim_C3_amended_primitive_matrix :
    (∀ st dt : SymbolicTypeData, st.sourceType = .primitive .number →
      (canCastFromPrimitiveType st dt = true ↔ dt.sourceType = .primitive .number))
    ∧ (∀ st dt : SymbolicTypeData, st.sourceType = .primitive .bool →
      (canCastFromPrimitiveType st dt = true ↔ dt.sourceType = .primitive .bool))
    ∧ (∀ st dt : SymbolicTypeData, st.sourceType = .primitive .string →
      (canCastFromPrimitiveType st dt = true ↔
        (dt.declaredPlace.text = "string" ∨ dt.declaredPlace.text = "String")))
    ∧ (∀ (st dt : SymbolicTypeData) (ss ds : Option SymbolScope) (p q : PrimitiveType),
      st.sourceType = .primitive p → dt.sourceType = .primitive q →
      q ≠ .any → q ≠ .auto →
      isTypeMatch (some (.mk (.type st) ss none)) (some (.mk (.type dt) ds none))
        = canCastFromPrimitiveType st dt) := by
  refine ⟨fun st dt h => ?_, fun st dt h => ?_, fun st dt h => ?_,
          fun st dt ss ds p q hp hq hqa hqau => ?_⟩
  · simp [canCastFromPrimitiveType, h]
  · simp [canCastFromPrimitiveType, h]
  · simp [canCastFromPrimitiveType, h]
  · cases hc : canCastFromPrimitiveType st dt with
    | true =>
      simp [isTypeMatch, resolveSelf, DeducedType.templateTranslate,
            isTypeMatchResolved, isTypeMatchInternal, hp, hq, hqa, hqau, hc]
    | false =>
      simp [isTypeMatch, resolveSelf, DeducedType.templateTranslate,
            isTypeMatchResolved, isTypeMatchInternal, hp, hq, hqa, hqau, hc]

/-- Witness for C3's amended statement at concrete inputs. -/
theorem claim_C3_witness :
    canCastFromPrimitiveType fxInt fxInt = true
    ∧ canCastFromPrimitiveType fxInt fxBool = false
    ∧ canCastFromPrimitiveType fxString fxString = true
    ∧ isTypeMatch (some (fxDeduced fxInt)) (some (fxDeduced fxBool))
        = canCastFromPrimitiveType fxInt fxBool := by
  refine ⟨?_, ?_, ?_, ?_⟩
  · exact (claim_C3_amended_primitive_matrix.1 fxInt fxInt rfl).2 rfl
  · have h := claim_C3_amended_primitive_matrix.1 fxInt fxBool rfl
    cases hc : canCastFromPrimitiveType fxInt fxBool with
    | true =>
      have := h.mp hc
      simp [fxBool, SymbolicTypeData.sourceType] at this
    | false => rfl
  · exact (claim_C3_amended_primitive_matrix.2.2.1 fxString fxString rfl).2
      (Or.inl rfl)
  · exact claim_C3_amended_primitive_matrix.2.2.2 fxInt fxBool none none
      .number .bool rfl rfl (by decide) (by decide)

/-! ## Reduction of isTypeMatch to its constructor fallback -/

/-- When the earlier compatibility tests fail and the destination is a
class declaration, `isTypeMatch` on plain (translation-free) sides reduces
to `canConstructImplicitly`. -/
theorem isTypeMatch_fallback (st dt : SymbolicTypeData) (ss ds : Option SymbolScope)
    (dn : DeclNode) (hdt : dt.sourceType = .node dn) (hcls : dn.nodeName = NodeName.Class)
    (hearly : match st.sourceType with
      | .primitive _ => canCastFromPrimitiveType st dt = false
      | .node sn => st.declaredPlace ≠ dt.declaredPlace
          ∧ canCastStatically sn dt.sourceType st dt = false) :
    isTypeMatch (some (.mk (.type st) ss none)) (some (.mk (.type dt) ds none))
      = canConstructImplicitly st ds dn.identifier.text := by
  rcases hst : st.sourceType with p | sn
  · rw [hst] at hearly
    have hprim : canCastFromPrimitiveType st dt = false := hearly
    simp [isTypeMatch, resolveSelf, DeducedType.templateTranslate, isTypeMatchResolved,
          isTypeMatchInternal, hst, hdt, hcls, hprim]
  · rw [hst] at hearly
    have hpair : st.declaredPlace ≠ dt.declaredPlace
        ∧ canCastStatically sn dt.sourceType st dt = false := hearly
    obtain ⟨hne, hcast⟩ := hpair
    rw [hdt] at hcast
    have hne2 : (st.declaredPlace == dt.declaredPlace) = false := by
      simp [hne]
    simp [isTypeMatch, resolveSelf, DeducedType.templateTranslate, isTypeMatchResolved,
          isTypeMatchInternal, hst, hdt, hcls, hne2, hcast]

/-! ## C7: single-level inheritance -/

/-- C7: if class `B` lists `A` in its immediate base list then
`isTypeMatch(B, A)` is true; and a class source none of whose immediate
base entries is identity-equal to the class destination is incompatible
(base-of-base is never walked), provided no implicit single-argument
construction applies. -/
theorem claim_C7_single_level_inheritance :
    (∀ (sB dA : SymbolicTypeData) (ss ds : Option SymbolScope) (nB : DeclNode)
       (base : List (Option DeducedType)),
      sB.sourceType = .node nB → nB.nodeName = NodeName.Class →
      sB.baseList = some base →
      (∃ b ∈ base, ∃ bd : DeducedType, b = some bd
         ∧ bd.symbolType.declaredPlace = dA.declaredPlace) →
      isTypeMatch (some (.mk (.type sB) ss none)) (some (.mk (.type dA) ds none)) = true)
    ∧ (∀ (sC dA : SymbolicTypeData) (ss ds : Option SymbolScope) (nC dnA : DeclNode),
      sC.sourceType = .node nC →
      dA.sourceType = .node dnA → dnA.nodeName = NodeName.Class →
      sC.declaredPlace ≠ dA.declaredPlace →
      (∀ b ∈ sC.baseList.getD [], ∀ bd : DeducedType, b = some bd →
        bd.symbolType.declaredPlace ≠ dA.declaredPlace) →
      canConstructImplicitly sC ds dnA.identifier.text = false →
      isTypeMatch (some (.mk (.type sC) ss none)) (some (.mk (.type dA) ds none)) = false) := by
  constructor
  · intro sB dA ss ds nB base hsB hclsB hbase hex
    have hcast : canCastStatically nB dA.sourceType sB dA = true := by
      unfold canCastStatically
      rw [if_pos (Or.inl hclsB), hbase]
      obtain ⟨b, hbmem, bd, hbd, htok⟩ := hex
      refine List.any_eq_true.mpr ⟨b, hbmem, ?_⟩
      subst hbd
      simp [htok]
    by_cases hAA : dA.sourceType = .primitive .any ∨ dA.sourceType = .primitive .auto
    · simp [isTypeMatch, resolveSelf, DeducedType.templateTranslate, isTypeMatchResolved,
            isTypeMatchInternal, hsB, hAA]
    · simp [isTypeMatch, resolveSelf, DeducedType.templateTranslate, isTypeMatchResolved,
            isTypeMatchInternal, hsB, hAA, hcast]
  · intro sC dA ss ds nC dnA hsC hdA hclsA hne hbases hctor
    have hcast : canCastStatically nC dA.sourceType sC dA = false := by
      unfold canCastStatically
      by_cases hcls : nC.nodeName = NodeName.Class ∨ nC.nodeName = NodeName.Interface
      · rw [if_pos hcls]
        cases hbl : sC.baseList with
        | none => rfl
        | some bl =>
          refine List.any_eq_false.mpr ?_
          intro b hbmem
          cases b with
          | none => simp
          | some bd =>
            have hb := hbases (some bd) (by rw [hbl]; simpa using hbmem) bd rfl
            simp [hb]
      · rw [if_neg hcls]
    have := isTypeMatch_fallback sC dA ss ds dnA hdA hclsA
      (by rw [hsC]; exact ⟨hne, hcast⟩)
    rw [this, hctor]

/-- Fixtures for C7: `B` lists `A` as immediate base; `C` lists only `B`;
`A`'s deduced type carries no source scope, so no implicit construction
applies. -/
def fxANode : DeclNode := ⟨110, .Class, fxTok 111 "A"⟩

def fxAType : SymbolicTypeData := .mk (fxTok 111 "A") (.node fxANode) none

def fxBNode : DeclNode := ⟨112, .Class, fxTok 113 "B"⟩

def fxBType : SymbolicTypeData :=
  .mk (fxTok 113 "B") (.node fxBNode) (some [some (.mk (.type fxAType) none none)])

def fxCNode : DeclNode := ⟨114, .Class, fxTok 115 "C"⟩

def fxCType : SymbolicTypeData :=
  .mk (fxTok 115 "C") (.node fxCNode) (some [some (.mk (.type fxBType) none none)])

/-- Witness for C7 at concrete inputs: `isTypeMatch(B, A)` is true and
`isTypeMatch(C, A)` is false. -/
theorem claim_C7_witness :
    isTypeMatch (some (.mk (.type fxBType) none none)) (some (.mk (.type fxAType) none none))
      = true
    ∧ isTypeMatch (some (.mk (.type fxCType) none none)) (some (.mk (.type fxAType) none none))
      = false := by
  constructor
  · exact claim_C7_single_level_inheritance.1 fxBType fxAType none none fxBNode
      [some (.mk (.type fxAType) none none)] rfl rfl rfl
      ⟨some (.mk (.type fxAType) none none), by simp, .mk (.type fxAType) none none, rfl, rfl⟩
  · refine claim_C7_single_level_inheritance.2 fxCType fxAType none none fxCNode fxANode
      rfl rfl rfl ?_ ?_ rfl
    · intro h
      simp [fxCType, fxAType, SymbolicTypeData.declaredPlace, fxTok] at h
    · intro b hb bd hbd
      simp [fxCType, SymbolicTypeData.baseList] at hb
      rw [hb] at hbd
      obtain rfl := Option.some.inj hbd
      intro h
      simp [fxBType, fxAType, SymbolicTypeData.declaredPlace, fxTok,
            DeducedType.symbolType, TypeOrFunc.declaredPlace] at h

/-! ## C2: the implicit-constructor fallback -/

/-- Following the spec's words for a single overload: it "has exactly one
parameter whose declared type is identity-equal to the source's declared
type". -/
def unaryParamMatches (g : SymbolicFunctionData) (srcType : SourceType) : Bool :=
  match g.parameterTypes with
  | [some pt] =>
    match pt.symbolType with
    | .type t => t.sourceType == srcType
    | .func _ => false
  | _ => false

theorem canConstructBy_step (d : ParsingToken) (s : NodeFunc) (r : Option DeducedType)
    (p : List (Option DeducedType)) (n : Option SymbolicFunctionData) (srcTy : SourceType) :
    canConstructBy (.mk d s r p n) srcTy
      = (unaryParamMatches (.mk d s r p n) srcTy
          || (match n with | some nx => canConstructBy nx srcTy | none => false)) := by
  rcases p with _ | ⟨pt, rest⟩
  · cases n <;> simp [canConstructBy, unaryParamMatches, SymbolicFunctionData.parameterTypes]
  · rcases rest with _ | ⟨pt2, rest2⟩
    · cases pt with
      | none =>
        cases n <;> simp [canConstructBy, unaryParamMatches, SymbolicFunctionData.parameterTypes]
      | some x =>
        cases hx : x.symbolType with
        | type t =>
          cases hts : t.sourceType == srcTy <;> cases n <;>
            simp [canConstructBy, unaryParamMatches, SymbolicFunctionData.parameterTypes,
                  hx, hts]
        | func f =>
          cases n <;>
            simp [canConstructBy, unaryParamMatches, SymbolicFunctionData.parameterTypes, hx]
    · cases n <;> simp [canConstructBy, unaryParamMatches, SymbolicFunctionData.parameterTypes]

/-- `canConstructBy` succeeds exactly when some overload of the chain has
exactly one parameter whose declared type is identity-equal to the
source's. -/
theorem canConstructBy_iff (ctor : SymbolicFunctionData) (srcTy : SourceType) :
    canConstructBy ctor srcTy = true ↔
      ∃ g ∈ overloadChain ctor, unaryParamMatches g srcTy = true := by
  induction ctor using overloadChain.induct with
  | case1 d s r p =>
    rw [canConstructBy_step]
    simp [overloadChain]
  | case2 d s r p n ih =>
    rw [canConstructBy_step]
    simp only [Bool.or_eq_true, ih, overloadChain, List.mem_cons]
    constructor
    · rintro (h | ⟨g, hg, hu⟩)
      · exact ⟨_, Or.inl rfl, h⟩
      · exact ⟨g, Or.inr hg, hu⟩
    · rintro ⟨g, hg | hg, hu⟩
      · subst hg; exact Or.inl hu
      · exact Or.inr ⟨g, hg, hu⟩

/-- `canConstructImplicitly` characterized: the destination's own nested
scope is found by name from its source scope, must be owned by a class
declaration, must hold a same-named constructor Function, some overload of
which has exactly one identity-matching parameter. -/
theorem canConstructImplicitly_iff (srcType : SymbolicTypeData)
    (destScope : Option SymbolScope) (destIdentifier : String) :
    canConstructImplicitly srcType destScope destIdentifier = true ↔
      ∃ constructorScope ctor,
        (destScope.bind fun sc => findScopeShallowly sc destIdentifier)
            = some constructorScope
        ∧ constructorScope.ownerNodeName = some NodeName.Class
        ∧ findSymbolShallowly constructorScope destIdentifier = some (.funcSym ctor)
        ∧ ∃ g ∈ overloadChain ctor, unaryParamMatches g srcType.sourceType = true := by
  cases destScope with
  | none => simp [canConstructImplicitly]
  | some sc =>
    cases hfs : findScopeShallowly sc destIdentifier with
    | none => simp [canConstructImplicitly, hfs]
    | some cs =>
      by_cases hown : cs.ownerNodeName = some NodeName.Class
      · cases hsym : findSymbolShallowly cs destIdentifier with
        | none => simp [canConstructImplicitly, hfs, hown, hsym]
        | some sym =>
          cases sym with
          | funcSym ctor =>
            have hred : canConstructImplicitly srcType (some sc) destIdentifier
                = canConstructBy ctor srcType.sourceType := by
              simp [canConstructImplicitly, hfs, hown, hsym]
            rw [hred]
            constructor
            · intro h
              exact ⟨cs, ctor, by simp [hfs], hown, hsym,
                (canConstructBy_iff ctor srcType.sourceType).mp h⟩
            · rintro ⟨cs2, ctor2, hcs2, hown2, hsym2, hg⟩
              simp only [Option.some_bind, hfs, Option.some.injEq] at hcs2
              subst hcs2
              rw [hsym] at hsym2
              have hctor := Option.some.inj hsym2
              injection hctor with hctor2
              subst hctor2
              exact (canConstructBy_iff ctor srcType.sourceType).mpr hg
          | typeSym t => simp [canConstructImplicitly, hfs, hown, hsym]
          | varSym d v => simp [canConstructImplicitly, hfs, hown, hsym]
      · simp [canConstructImplicitly, hfs, hown]

/-- C2: when `isTypeMatch` reaches the constructor fallback with a
class-declaration destination, it succeeds if and only if the destination's
own nested scope (found by the destination's name from its source scope and
owned by a class declaration) holds a same-named constructor Function some
overload of which has exactly one parameter whose declared type is
identity-equal to the source's declared type. -/
theorem claim_C2_constructor_fallback
    (st dt : SymbolicTypeData) (ss ds : Option SymbolScope) (dn : DeclNode)
    (hdt : dt.sourceType = .node dn) (hcls : dn.nodeName = NodeName.Class)
    (hearly : match st.sourceType with
      | .primitive _ => canCastFromPrimitiveType st dt = false
      | .node sn => st.declaredPlace ≠ dt.declaredPlace
          ∧ canCastStatically sn dt.sourceType st dt = false) :
    isTypeMatch (some (.mk (.type st) ss none)) (some (.mk (.type dt) ds none)) = true
      ↔ ∃ constructorScope ctor,
          (ds.bind fun sc => findScopeShallowly sc dn.identifier.text)
              = some constructorScope
          ∧ constructorScope.ownerNodeName = some NodeName.Class
          ∧ findSymbolShallowly constructorScope dn.identifier.text
              = some (.funcSym ctor)
          ∧ ∃ g ∈ overloadChain ctor, unaryParamMatches g st.sourceType = true := by
  rw [isTypeMatch_fallback st dt ss ds dn hdt hcls hearly]
  exact canConstructImplicitly_iff st ds dn.identifier.text

/-- Fixtures for C2: class `P` whose own scope holds a constructor
`P(x: int)` (Number-tagged) resp. only `P(x: string)`. -/
def fxPNode : DeclNode := ⟨100, .Class, fxTok 101 "P"⟩

def fxPType : SymbolicTypeData := .mk (fxTok 101 "P") (.node fxPNode) none

def fxPCtorNum : SymbolicFunctionData :=
  .mk (fxTok 102 "P") ⟨[⟨some (fxTok 103 "x"), false⟩]⟩ none [some (fxDeduced fxInt)] none

def fxPScopeNum : SymbolScope := .mk (some .Class) [] [("P", .funcSym fxPCtorNum)]

def fxGlobalNum : SymbolScope := .mk none [("P", fxPScopeNum)] [("P", .typeSym fxPType)]

def fxPCtorStr : SymbolicFunctionData :=
  .mk (fxTok 104 "P") ⟨[⟨some (fxTok 105 "x"), false⟩]⟩ none [some (fxDeduced fxString)] none

def fxPScopeStr : SymbolScope := .mk (some .Class) [] [("P", .funcSym fxPCtorStr)]

def fxGlobalStr : SymbolScope := .mk none [("P", fxPScopeStr)] [("P", .typeSym fxPType)]

theorem fxInt_early_fails : (match fxInt.sourceType with
    | .primitive _ => canCastFromPrimitiveType fxInt fxPType = false
    | .node sn => fxInt.declaredPlace ≠ fxPType.declaredPlace
        ∧ canCastStatically sn fxPType.sourceType fxInt fxPType = false) := by
  show canCastFromPrimitiveType fxInt fxPType = false
  decide

/-- Witness for C2: `P(x: Number)` makes `isTypeMatch(Number, P)` true, a
sole `P(x: String)` makes it false. -/
theorem claim_C2_witness :
    isTypeMatch (some (fxDeduced fxInt)) (some (.mk (.type fxPType) (some fxGlobalNum) none))
      = true
    ∧ isTypeMatch (some (fxDeduced fxInt)) (some (.mk (.type fxPType) (some fxGlobalStr) none))
      = false := by
  constructor
  · exact (claim_C2_constructor_fallback fxInt fxPType none (some fxGlobalNum) fxPNode
      rfl rfl fxInt_early_fails).mpr
      ⟨fxPScopeNum, fxPCtorNum, rfl, rfl, rfl, fxPCtorNum,
       by simp [overloadChain, fxPCtorNum], by decide⟩
  · have h := claim_C2_constructor_fallback fxInt fxPType none (some fxGlobalStr) fxPNode
      rfl rfl fxInt_early_fails
    cases hb : isTypeMatch (some (fxDeduced fxInt))
        (some (.mk (.type fxPType) (some fxGlobalStr) none)) with
    | false => rfl
    | true =>
      exfalso
      obtain ⟨cs, ctor, hcs, hown, hsym, g, hgmem, hu⟩ := h.mp hb
      have hcs2 : (some fxPScopeStr : Option SymbolScope) = some cs := by
        rw [← hcs]; rfl
      obtain rfl := (Option.some.inj hcs2).symm
      have hsym2 : (some (SymbolicObject.funcSym fxPCtorStr) : Option SymbolicObject)
          = some (.funcSym ctor) := by
        rw [← hsym]; rfl
      have hctor := Option.some.inj hsym2
      injection hctor with hctor2
      subst hctor2
      simp [overloadChain, fxPCtorStr] at hgmem
      subst hgmem
      exact absurd hu (by decide)

/-! ## Behavior of the per-parameter loop -/

theorem translatedArg_none (templateTranslator : Option TemplateTranslation) :
    translatedArg templateTranslator none = none := by
  cases templateTranslator <;> simp [translatedArg, resolveTemplateType]

/-- One loop iteration passes silently: the missing-argument branch does
not fire and the per-parameter check neither reports nor retries. -/
def stepSilent (callerArgs pts : List (Option DeducedType))
    (templateTranslator : Option TemplateTranslation) (p : NodeParam) (i : Nat) : Prop :=
  (i < callerArgs.length ∨ p.hasDefaultExpr = true)
  ∧ (translatedArg templateTranslator (callerArgs.getD i none) = none
     ∨ translatedArg templateTranslator (pts.getD i none) = none
     ∨ isTypeMatch (translatedArg templateTranslator (callerArgs.getD i none))
         (translatedArg templateTranslator (pts.getD i none)) = true)

theorem paramLoop_cons_silent {cn : CallerNode} {ca : List (Option DeducedType)}
    {f : SymbolicFunctionData} {tt : Option TemplateTranslation} {p : NodeParam}
    {rest : List NodeParam} {i : Nat} {ds : List Diagnostic}
    (h : stepSilent ca f.parameterTypes tt p i) :
    paramLoop cn ca f tt (p :: rest) i ds = paramLoop cn ca f tt rest (i + 1) ds := by
  obtain ⟨h1, h2⟩ := h
  have hcond : ¬(i ≥ ca.length ∧ p.hasDefaultExpr = false) := by
    rcases h1 with h1 | h1
    · rintro ⟨hgte, _⟩; omega
    · rintro ⟨_, hdf⟩; rw [h1] at hdf; cases hdf
  cases ha : translatedArg tt (ca.getD i none) with
  | none =>
    conv_lhs => rw [paramLoop]
    rw [if_neg hcond, ha]
    simp
  | some a =>
    cases he : translatedArg tt (f.parameterTypes.getD i none) with
    | none =>
      conv_lhs => rw [paramLoop]
      rw [if_neg hcond, ha, he]
    | some e =>
      have hm : isTypeMatch (some a) (some e) = true := by
        rcases h2 with h2 | h2 | h2
        · rw [ha] at h2; cases h2
        · rw [he] at h2; cases h2
        · rw [ha, he] at h2; exact h2
      conv_lhs => rw [paramLoop]
      rw [if_neg hcond, ha, he]
      simp [hm]

theorem paramLoop_cons_convert {cn : CallerNode} {ca : List (Option DeducedType)}
    {f : SymbolicFunctionData} {tt : Option TemplateTranslation} {p : NodeParam}
    {rest : List NodeParam} {i : Nat} {ds : List Diagnostic} {a e : DeducedType}
    (ha : translatedArg tt (ca.getD i none) = some a)
    (he : translatedArg tt (f.parameterTypes.getD i none) = some e)
    (hm : isTypeMatch (some a) (some e) = false)
    (hn : f.nextOverload = none) :
    paramLoop cn ca f tt (p :: rest) i ds
      = paramLoop cn ca f tt rest (i + 1)
          (ds ++ [⟨cn.argLocs.getD i ⟨0⟩, cannotConvertMessage a e⟩]) := by
  have hlt : i < ca.length := by
    by_contra hc
    rw [List.getD_eq_default _ _ (by omega), translatedArg_none] at ha
    cases ha
  have hcond : ¬(i ≥ ca.length ∧ p.hasDefaultExpr = false) := by
    rintro ⟨hgte, _⟩; omega
  conv_lhs => rw [paramLoop]
  rw [if_neg hcond, ha, he]
  simp [hm, hn]

theorem paramLoop_cons_missing {cn : CallerNode} {ca : List (Option DeducedType)}
    {f : SymbolicFunctionData} {tt : Option TemplateTranslation} {p : NodeParam}
    {rest : List NodeParam} {i : Nat} {ds : List Diagnostic}
    (hge : ca.length ≤ i) (hnd : p.hasDefaultExpr = false) (hn : f.nextOverload = none) :
    paramLoop cn ca f tt (p :: rest) i ds
      = .halted (ds ++ [⟨cn.nodeRange, missingArgumentMessage p⟩]) := by
  have hcond : i ≥ ca.length ∧ p.hasDefaultExpr = false := ⟨hge, hnd⟩
  conv_lhs => rw [paramLoop]
  rw [if_pos hcond, hn]

theorem paramLoop_append_silent {cn : CallerNode} {ca : List (Option DeducedType)}
    {f : SymbolicFunctionData} {tt : Option TemplateTranslation}
    (ps : List NodeParam) {rest : List NodeParam} {i : Nat} {ds : List Diagnostic}
    (h : ∀ j (hj : j < ps.length), stepSilent ca f.parameterTypes tt (ps.get ⟨j, hj⟩) (i + j)) :
    paramLoop cn ca f tt (ps ++ rest) i ds = paramLoop cn ca f tt rest (i + ps.length) ds := by
  induction ps generalizing i with
  | nil => simp
  | cons p ps ih =>
    have h0 := h 0 (by simp)
    rw [List.cons_append,
        paramLoop_cons_silent (by simpa using h0),
        ih (fun j hj => by
          have := h (j + 1) (by simpa using Nat.succ_lt_succ hj)
          simpa [Nat.add_assoc, Nat.add_comm 1 j] using this)]
    congr 1
    simp
    omega

theorem paramLoop_silent_halted {cn : CallerNode} {ca : List (Option DeducedType)}
    {f : SymbolicFunctionData} {tt : Option TemplateTranslation}
    (ps : List NodeParam) {i : Nat} {ds : List Diagnostic}
    (h : ∀ j (hj : j < ps.length), stepSilent ca f.parameterTypes tt (ps.get ⟨j, hj⟩) (i + j)) :
    paramLoop cn ca f tt ps i ds = .halted ds := by
  have h2 := @paramLoop_append_silent cn ca f tt ps [] i ds h
  rw [List.append_nil] at h2
  rw [h2]
  simp [paramLoop]

/-! ## Unfolding lemmas for checkFunctionMatch -/

theorem checkFunctionMatch_tooMany {cn : CallerNode} {ca : List (Option DeducedType)}
    {f : SymbolicFunctionData} {tt : Option TemplateTranslation}
    (hgt : ca.length > f.sourceNode.paramList.length) :
    checkFunctionMatch cn ca f tt = handleTooMuchCallerArgs cn ca f tt := by
  rw [checkFunctionMatch]
  simp only [if_pos hgt]

theorem checkFunctionMatch_halted {cn : CallerNode} {ca : List (Option DeducedType)}
    {f : SymbolicFunctionData} {tt : Option TemplateTranslation} {ds : List Diagnostic}
    (hle : ¬ ca.length > f.sourceNode.paramList.length)
    (hloop : paramLoop cn ca f tt f.sourceNode.paramList 0 [] = .halted ds) :
    checkFunctionMatch cn ca f tt
      = ⟨ds, [⟨f, getIdentifierInFuncOrConstructor cn⟩], f.returnType⟩ := by
  rw [checkFunctionMatch]
  simp only [if_neg hle]
  split
  · rename_i ds2 next heq
    rw [hloop] at heq
    cases heq
  · rename_i ds2 heq
    rw [hloop] at heq
    cases heq
    rfl

theorem checkFunctionMatch_retry {cn : CallerNode} {ca : List (Option DeducedType)}
    {f : SymbolicFunctionData} {tt : Option TemplateTranslation} {ds : List Diagnostic}
    {next : SymbolicFunctionData}
    (hle : ¬ ca.length > f.sourceNode.paramList.length)
    (hloop : paramLoop cn ca f tt f.sourceNode.paramList 0 [] = .retry ds next) :
    checkFunctionMatch cn ca f tt
      = ⟨ds ++ (checkFunctionMatch cn ca next tt).diagnostics,
         (checkFunctionMatch cn ca next tt).references,
         (checkFunctionMatch cn ca next tt).returnType⟩ := by
  rw [checkFunctionMatch]
  simp only [if_neg hle]
  split
  · rename_i ds2 next2 heq
    rw [hloop] at heq
    cases heq
    rfl
  · rename_i ds2 heq
    rw [hloop] at heq
    cases heq

theorem handleTooMuch_next {cn : CallerNode} {ca : List (Option DeducedType)}
    {f : SymbolicFunctionData} {tt : Option TemplateTranslation}
    {next : SymbolicFunctionData} (hn : f.nextOverload = some next) :
    handleTooMuchCallerArgs cn ca f tt = checkFunctionMatch cn ca next tt := by
  rw [handleTooMuchCallerArgs]
  split
  · rename_i next2 heq
    rw [hn] at heq
    cases heq
    rfl
  · rename_i heq
    rw [hn] at heq
    cases heq

theorem handleTooMuch_none {cn : CallerNode} {ca : List (Option DeducedType)}
    {f : SymbolicFunctionData} {tt : Option TemplateTranslation}
    (hn : f.nextOverload = none) :
    handleTooMuchCallerArgs cn ca f tt
      = ⟨[⟨cn.nodeRange,
           tooManyArgumentsMessage f.sourceNode.paramList.length ca.length⟩],
         [⟨f, getIdentifierInFuncOrConstructor cn⟩], f.returnType⟩ := by
  rw [handleTooMuchCallerArgs]
  split
  · rename_i next2 heq
    rw [hn] at heq
    cases heq
  · rfl

/-! ## C4: exactly one reference edge, best-effort return type -/

/-- C4: on every execution path `checkFunctionMatch` appends exactly one
reference edge (the resolved callee paired with the call-site identifier
token) and returns the return type of the overload it settled on; in the
too-many-arguments case with no remaining overload this is the mismatched
callee's own return type, after an arity error citing the declared and
supplied counts. -/
theorem claim_C4_reference_edge (cn : CallerNode) (ca : List (Option DeducedType))
    (f : SymbolicFunctionData) (tt : Option TemplateTranslation) :
    (∃ g, (checkFunctionMatch cn ca f tt).references
            = [⟨g, getIdentifierInFuncOrConstructor cn⟩]
          ∧ (checkFunctionMatch cn ca f tt).returnType = g.returnType)
    ∧ (ca.length > f.sourceNode.paramList.length → f.nextOverload = none →
        checkFunctionMatch cn ca f tt
          = ⟨[⟨cn.nodeRange,
               tooManyArgumentsMessage f.sourceNode.paramList.length ca.length⟩],
             [⟨f, getIdentifierInFuncOrConstructor cn⟩], f.returnType⟩) := by
  have hmain : ∀ n (f : SymbolicFunctionData), sizeOf f ≤ n →
      (∃ g, (handleTooMuchCallerArgs cn ca f tt).references
              = [⟨g, getIdentifierInFuncOrConstructor cn⟩]
            ∧ (handleTooMuchCallerArgs cn ca f tt).returnType = g.returnType)
      ∧ (∃ g, (checkFunctionMatch cn ca f tt).references
              = [⟨g, getIdentifierInFuncOrConstructor cn⟩]
            ∧ (checkFunctionMatch cn ca f tt).returnType = g.returnType) := by
    intro n
    induction n using Nat.strong_induction_on with
    | _ n ih =>
      intro f hf
      have hhandle : ∃ g, (handleTooMuchCallerArgs cn ca f tt).references
              = [⟨g, getIdentifierInFuncOrConstructor cn⟩]
            ∧ (handleTooMuchCallerArgs cn ca f tt).returnType = g.returnType := by
        cases hn : f.nextOverload with
        | some next =>
          rw [handleTooMuch_next hn]
          have hlt := sizeOf_nextOverload hn
          exact (ih (sizeOf next) (by omega) next le_rfl).2
        | none =>
          rw [handleTooMuch_none hn]
          exact ⟨f, rfl, rfl⟩
      refine ⟨hhandle, ?_⟩
      by_cases hgt : ca.length > f.sourceNode.paramList.length
      · rw [checkFunctionMatch_tooMany hgt]
        exact hhandle
      · cases hloop : paramLoop cn ca f tt f.sourceNode.paramList 0 [] with
        | retry ds next =>
          rw [checkFunctionMatch_retry hgt hloop]
          have hlt := sizeOf_nextOverload (paramLoop_retry hloop)
          obtain ⟨g, hg1, hg2⟩ := (ih (sizeOf next) (by omega) next le_rfl).2
          exact ⟨g, hg1, hg2⟩
        | halted ds =>
          rw [checkFunctionMatch_halted hgt hloop]
          exact ⟨f, rfl, rfl⟩
  refine ⟨(hmain (sizeOf f) f le_rfl).2, fun hgt hn => ?_⟩
  rw [checkFunctionMatch_tooMany hgt, handleTooMuch_none hn]

/-- Call-site fixture with four argument locations. -/
def fxCall : CallerNode :=
  .funcCall (fxTok 300 "f") ⟨300⟩ [⟨301⟩, ⟨302⟩, ⟨303⟩, ⟨304⟩]

/-- Witness for C4: a well-typed call records one edge and the callee's
return type; a four-argument call against the final three-parameter
overload reports the arity error, still records the edge, and returns that
callee's return type. -/
theorem claim_C4_witness :
    (∃ g, (checkFunctionMatch fxCall [some (fxDeduced fxInt)] fxF1 none).references
            = [⟨g, getIdentifierInFuncOrConstructor fxCall⟩]
          ∧ (checkFunctionMatch fxCall [some (fxDeduced fxInt)] fxF1 none).returnType
              = g.returnType)
    ∧ checkFunctionMatch fxCall
        [some (fxDeduced fxInt), some (fxDeduced fxInt),
         some (fxDeduced fxInt), some (fxDeduced fxInt)] fxF3 none
      = ⟨[⟨fxCall.nodeRange, tooManyArgumentsMessage 3 4⟩],
         [⟨fxF3, getIdentifierInFuncOrConstructor fxCall⟩],
         some (fxDeduced fxString)⟩ := by
  constructor
  · exact (claim_C4_reference_edge fxCall [some (fxDeduced fxInt)] fxF1 none).1
  · have h := (claim_C4_reference_edge fxCall
      [some (fxDeduced fxInt), some (fxDeduced fxInt),
       some (fxDeduced fxInt), some (fxDeduced fxInt)] fxF3 none).2
      (by simp [fxF3, SymbolicFunctionData.sourceNode])
      (by simp [fxF3, SymbolicFunctionData.nextOverload])
    rw [h]
    simp [fxF3, SymbolicFunctionData.sourceNode, SymbolicFunctionData.returnType]

/-! ## C5: the missing-argument break -/

/-- C5: when a declared parameter beyond the supplied arguments has no
default expression and no further overload exists, exactly one
missing-argument diagnostic naming that parameter is reported and no later
parameter of the call is checked (the parameters after it are completely
arbitrary and contribute nothing); the call still records its reference
edge and returns the callee's return type. -/
theorem claim_C5_missing_argument_break (cn : CallerNode) (ca : List (Option DeducedType))
    (f : SymbolicFunctionData) (tt : Option TemplateTranslation)
    (pre : List NodeParam) (pm : NodeParam) (post : List NodeParam)
    (hparams : f.sourceNode.paramList = pre ++ pm :: post)
    (hn : f.nextOverload = none)
    (hge : ca.length ≤ pre.length)
    (hnd : pm.hasDefaultExpr = false)
    (hsil : ∀ j (hj : j < pre.length), stepSilent ca f.parameterTypes tt (pre.get ⟨j, hj⟩) j) :
    checkFunctionMatch cn ca f tt
      = ⟨[⟨cn.nodeRange, missingArgumentMessage pm⟩],
         [⟨f, getIdentifierInFuncOrConstructor cn⟩], f.returnType⟩ := by
  have hle : ¬ ca.length > f.sourceNode.paramList.length := by
    rw [hparams]
    simp only [List.length_append, List.length_cons]
    omega
  have hloop : paramLoop cn ca f tt f.sourceNode.paramList 0 []
      = .halted [⟨cn.nodeRange, missingArgumentMessage pm⟩] := by
    rw [hparams,
        paramLoop_append_silent pre (fun j hj => by simpa using hsil j hj),
        paramLoop_cons_missing (by omega) hnd hn]
    simp
  exact checkFunctionMatch_halted hle hloop

/-- Fixture for C5/C6: `g(a, b, c)` where only `c` has a default, together
with a call site carrying three argument locations. -/
def fxG : SymbolicFunctionData :=
  .mk (fxTok 400 "g")
    ⟨[⟨some (fxTok 401 "a"), false⟩, ⟨some (fxTok 402 "b"), false⟩,
      ⟨some (fxTok 403 "c"), true⟩]⟩
    (some (fxDeduced fxBool))
    [some (fxDeduced fxInt), some (fxDeduced fxInt), some (fxDeduced fxInt)] none

def fxCallG : CallerNode := .funcCall (fxTok 404 "g") ⟨404⟩ [⟨405⟩, ⟨406⟩, ⟨407⟩]

theorem fxMatch_int_int :
    isTypeMatch (some (fxDeduced fxInt)) (some (fxDeduced fxInt)) = true := by
  simp [isTypeMatch, resolveSelf, DeducedType.templateTranslate, isTypeMatchResolved,
        isTypeMatchInternal, fxDeduced, fxInt, SymbolicTypeData.sourceType,
        canCastFromPrimitiveType]

theorem fxMatch_bool_int :
    isTypeMatch (some (fxDeduced fxBool)) (some (fxDeduced fxInt)) = false := by
  simp [isTypeMatch, resolveSelf, DeducedType.templateTranslate, isTypeMatchResolved,
        isTypeMatchInternal, fxDeduced, fxInt, fxBool, SymbolicTypeData.sourceType,
        canCastFromPrimitiveType, fxTok, SymbolicTypeData.declaredPlace]

theorem fxMatch_string_int :
    isTypeMatch (some (fxDeduced fxString)) (some (fxDeduced fxInt)) = false := by
  simp [isTypeMatch, resolveSelf, DeducedType.templateTranslate, isTypeMatchResolved,
        isTypeMatchInternal, fxDeduced, fxInt, fxString, SymbolicTypeData.sourceType,
        canCastFromPrimitiveType, fxTok, SymbolicTypeData.declaredPlace]

/-- Witness for C5: calling `g` with one well-typed argument reports only
the missing-argument diagnostic for `b` — nothing about `c`. -/
theorem claim_C5_witness :
    checkFunctionMatch fxCallG [some (fxDeduced fxInt)] fxG none
      = ⟨[⟨⟨404⟩, "Missing argument for parameter b 💢"⟩],
         [⟨fxG, fxTok 404 "g"⟩], some (fxDeduced fxBool)⟩ := by
  have h := claim_C5_missing_argument_break fxCallG [some (fxDeduced fxInt)] fxG none
    [⟨some (fxTok 401 "a"), false⟩] ⟨some (fxTok 402 "b"), false⟩ [⟨some (fxTok 403 "c"), true⟩]
    (by simp [fxG, SymbolicFunctionData.sourceNode])
    (by simp [fxG, SymbolicFunctionData.nextOverload])
    (by simp)
    rfl
    (fun j hj => by
      have hj0 : j = 0 := by simpa [Nat.lt_one_iff] using hj
      subst hj0
      exact ⟨Or.inl (by simp), Or.inr (Or.inr (by
        simpa [translatedArg, fxG, SymbolicFunctionData.parameterTypes]
          using fxMatch_int_int))⟩)
  rw [h]
  simp [fxCallG, CallerNode.nodeRange, getIdentifierInFuncOrConstructor,
        missingArgumentMessage, fxG, SymbolicFunctionData.returnType, fxTok]

/-! ## C6: accumulation against the final overload -/

/-- C6: when the arguments fail `isTypeMatch` against the final overload at
two distinct parameter positions, `checkFunctionMatch` reports exactly one
conversion-error diagnostic per mismatched position — two diagnostics, at
those arguments' own source ranges, in positional order — and the loop runs
to the end of the parameter list rather than stopping at the first
mismatch. -/
theorem claim_C6_final_overload_accumulation (cn : CallerNode)
    (ca : List (Option DeducedType)) (f : SymbolicFunctionData)
    (tt : Option TemplateTranslation)
    (A : List NodeParam) (p1 : NodeParam) (B : List NodeParam) (p2 : NodeParam)
    (C : List NodeParam) (a1 e1 a2 e2 : DeducedType)
    (hparams : f.sourceNode.paramList = A ++ p1 :: (B ++ p2 :: C))
    (hn : f.nextOverload = none)
    (hle : ¬ ca.length > f.sourceNode.paramList.length)
    (hsA : ∀ j (hj : j < A.length), stepSilent ca f.parameterTypes tt (A.get ⟨j, hj⟩) j)
    (ha1 : translatedArg tt (ca.getD A.length none) = some a1)
    (he1 : translatedArg tt (f.parameterTypes.getD A.length none) = some e1)
    (hm1 : isTypeMatch (some a1) (some e1) = false)
    (hsB : ∀ j (hj : j < B.length),
      stepSilent ca f.parameterTypes tt (B.get ⟨j, hj⟩) (A.length + 1 + j))
    (ha2 : translatedArg tt (ca.getD (A.length + 1 + B.length) none) = some a2)
    (he2 : translatedArg tt (f.parameterTypes.getD (A.length + 1 + B.length) none) = some e2)
    (hm2 : isTypeMatch (some a2) (some e2) = false)
    (hsC : ∀ j (hj : j < C.length),
      stepSilent ca f.parameterTypes tt (C.get ⟨j, hj⟩) (A.length + 1 + B.length + 1 + j)) :
    checkFunctionMatch cn ca f tt
      = ⟨[⟨cn.argLocs.getD A.length ⟨0⟩, cannotConvertMessage a1 e1⟩,
          ⟨cn.argLocs.getD (A.length + 1 + B.length) ⟨0⟩, cannotConvertMessage a2 e2⟩],
         [⟨f, getIdentifierInFuncOrConstructor cn⟩], f.returnType⟩ := by
  have hloop : paramLoop cn ca f tt f.sourceNode.paramList 0 []
      = .halted [⟨cn.argLocs.getD A.length ⟨0⟩, cannotConvertMessage a1 e1⟩,
                 ⟨cn.argLocs.getD (A.length + 1 + B.length) ⟨0⟩, cannotConvertMessage a2 e2⟩] := by
    rw [hparams,
        paramLoop_append_silent A (fun j hj => by simpa using hsA j hj),
        show (0 + A.length) = A.length from by omega,
        paramLoop_cons_convert ha1 he1 hm1 hn,
        paramLoop_append_silent B (fun j hj => hsB j hj),
        paramLoop_cons_convert ha2 he2 hm2 hn,
        paramLoop_silent_halted C (fun j hj => hsC j hj)]
    simp
  exact checkFunctionMatch_halted hle hloop

/-- Witness for C6: `g(bool, string, int)` against `g(int, int, int)` with
no further overload reports exactly the two conversion diagnostics, in
order, at the first and second argument ranges. -/
theorem claim_C6_witness :
    checkFunctionMatch fxCallG
      [some (fxDeduced fxBool), some (fxDeduced fxString), some (fxDeduced fxInt)] fxG none
      = ⟨[⟨⟨405⟩, "Cannot convert bool to parameter type int 💢"⟩,
          ⟨⟨406⟩, "Cannot convert string to parameter type int 💢"⟩],
         [⟨fxG, fxTok 404 "g"⟩], some (fxDeduced fxBool)⟩ := by
  have h := claim_C6_final_overload_accumulation fxCallG
    [some (fxDeduced fxBool), some (fxDeduced fxString), some (fxDeduced fxInt)] fxG none
    [] ⟨some (fxTok 401 "a"), false⟩ [] ⟨some (fxTok 402 "b"), false⟩
    [⟨some (fxTok 403 "c"), true⟩]
    (fxDeduced fxBool) (fxDeduced fxInt) (fxDeduced fxString) (fxDeduced fxInt)
    (by simp [fxG, SymbolicFunctionData.sourceNode])
    (by simp [fxG, SymbolicFunctionData.nextOverload])
    (by simp [fxG, SymbolicFunctionData.sourceNode])
    (fun j hj => by simp at hj)
    (by simp [translatedArg])
    (by simp [translatedArg, fxG, SymbolicFunctionData.parameterTypes])
    fxMatch_bool_int
    (fun j hj => by simp at hj)
    (by simp [translatedArg])
    (by simp [translatedArg, fxG, SymbolicFunctionData.parameterTypes])
    fxMatch_string_int
    (fun j hj => by
      have hj0 : j = 0 := by simpa [Nat.lt_one_iff] using hj
      subst hj0
      exact ⟨Or.inl (by simp), Or.inr (Or.inr (by
        simpa [translatedArg, fxG, SymbolicFunctionData.parameterTypes]
          using fxMatch_int_int))⟩)
  rw [h]
  simp [fxCallG, CallerNode.argLocs, getIdentifierInFuncOrConstructor,
        cannotConvertMessage, fxG, SymbolicFunctionData.returnType, fxTok,
        fxDeduced, fxBool, fxString, fxInt, DeducedType.symbolType,
        TypeOrFunc.declaredPlace, SymbolicTypeData.declaredPlace]

/-! ## C1: overload chain order and first-applicable selection -/

/-- C1: inserting three Function symbols named `f` declaring 1, 2 and 3
parameters in that order leaves the map entry for `f` heading the overload
chain in exactly insertion order; `checkFunctionMatch` on a call supplying
two arguments compatible with the 2-parameter overload skips the
1-parameter overload (arity), binds the 2-parameter overload, emits no
diagnostic, records the reference edge against it, and returns its return
type — first-applicable selection, never best-match scoring. -/
theorem claim_C1_overload_order
    (m : SymbolMap)
    (da db dc : ParsingToken) (sa sb sc : NodeFunc)
    (ra rb rc : Option DeducedType)
    (pa pb pc : List (Option DeducedType))
    (hm : mapGet m "f" = none)
    (hta : da.text = "f") (htb : db.text = "f") (htc : dc.text = "f")
    (h1 : sa.paramList.length = 1) (h2 : sb.paramList.length = 2)
    (h3 : sc.paramList.length = 3) :
    mapGet (insertSymbolicObject
        (insertSymbolicObject
          (insertSymbolicObject m (.funcSym (.mk da sa ra pa none))).map
          (.funcSym (.mk db sb rb pb none))).map
        (.funcSym (.mk dc sc rc pc none))).map "f"
      = some (.funcSym (.mk da sa ra pa
          (some (.mk db sb rb pb (some (.mk dc sc rc pc none))))))
    ∧ (∀ (cn : CallerNode) (a1 a2 x1 x2 : DeducedType),
        pb = [some x1, some x2] →
        isTypeMatch (some a1) (some x1) = true →
        isTypeMatch (some a2) (some x2) = true →
        checkFunctionMatch cn [some a1, some a2]
            (.mk da sa ra pa (some (.mk db sb rb pb (some (.mk dc sc rc pc none))))) none
          = ⟨[], [⟨.mk db sb rb pb (some (.mk dc sc rc pc none)),
                   getIdentifierInFuncOrConstructor cn⟩], rb⟩) := by
  constructor
  · have s1 : insertSymbolicObject m (.funcSym (.mk da sa ra pa none))
        = ⟨mapSet m "f" (.funcSym (.mk da sa ra pa none)), [], true⟩ := by
      simp [insertSymbolicObject, SymbolicObject.declaredPlace,
            SymbolicFunctionData.declaredPlace, hta, hm]
    have s2 : insertSymbolicObject (mapSet m "f" (.funcSym (.mk da sa ra pa none)))
          (.funcSym (.mk db sb rb pb none))
        = ⟨mapSet (mapSet m "f" (.funcSym (.mk da sa ra pa none))) "f"
            (.funcSym (.mk da sa ra pa (some (.mk db sb rb pb none)))), [], true⟩ := by
      simp [insertSymbolicObject, SymbolicObject.declaredPlace,
            SymbolicFunctionData.declaredPlace, htb, mapGet_mapSet_self, appendOverload]
    have s3 : insertSymbolicObject
          (mapSet (mapSet m "f" (.funcSym (.mk da sa ra pa none))) "f"
            (.funcSym (.mk da sa ra pa (some (.mk db sb rb pb none)))))
          (.funcSym (.mk dc sc rc pc none))
        = ⟨mapSet (mapSet (mapSet m "f" (.funcSym (.mk da sa ra pa none))) "f"
              (.funcSym (.mk da sa ra pa (some (.mk db sb rb pb none))))) "f"
            (.funcSym (.mk da sa ra pa
              (some (.mk db sb rb pb (some (.mk dc sc rc pc none)))))), [], true⟩ := by
      simp [insertSymbolicObject, SymbolicObject.declaredPlace,
            SymbolicFunctionData.declaredPlace, htc, mapGet_mapSet_self, appendOverload]
    rw [s1]
    rw [show (InsertResult.mk (mapSet m "f" (.funcSym (.mk da sa ra pa none))) [] true).map
          = mapSet m "f" (.funcSym (.mk da sa ra pa none)) from rfl, s2]
    rw [show (InsertResult.mk (mapSet (mapSet m "f" (.funcSym (.mk da sa ra pa none))) "f"
            (.funcSym (.mk da sa ra pa (some (.mk db sb rb pb none))))) [] true).map
          = _ from rfl, s3]
    exact mapGet_mapSet_self _ _ _
  · intro cn a1 a2 x1 x2 hpb hma hmb
    rw [checkFunctionMatch_tooMany
          (by simp [SymbolicFunctionData.sourceNode, h1]),
        handleTooMuch_next
          (show (SymbolicFunctionData.mk da sa ra pa
              (some (.mk db sb rb pb (some (.mk dc sc rc pc none))))).nextOverload
            = some (.mk db sb rb pb (some (.mk dc sc rc pc none))) from rfl)]
    obtain ⟨q1, q2, hsb⟩ := List.length_eq_two.mp h2
    have hpts : (SymbolicFunctionData.mk db sb rb pb
        (some (SymbolicFunctionData.mk dc sc rc pc none))).parameterTypes
        = [some x1, some x2] := by
      simp [SymbolicFunctionData.parameterTypes, hpb]
    have hloop : paramLoop cn [some a1, some a2]
        (.mk db sb rb pb (some (.mk dc sc rc pc none))) none sb.paramList 0 []
        = .halted [] := by
      rw [hsb]
      apply paramLoop_silent_halted [q1, q2]
      intro j hj
      have hj2 : j < 2 := by simpa using hj
      match j, hj2 with
      | 0, _ =>
        exact ⟨Or.inl (by simp),
               Or.inr (Or.inr (by simpa [translatedArg, hpts] using hma))⟩
      | 1, _ =>
        exact ⟨Or.inl (by simp),
               Or.inr (Or.inr (by simpa [translatedArg, hpts] using hmb))⟩
    rw [checkFunctionMatch_halted
          (by simp [SymbolicFunctionData.sourceNode, h2]) hloop]
    simp [SymbolicFunctionData.returnType]

/-- The chain `fxF2` followed by `fxF3`, and `fxF1` heading both, as built
by the three insertions. -/
def fxF2chain : SymbolicFunctionData :=
  .mk (fxTok 202 "f") ⟨[⟨some (fxTok 206 "a"), false⟩, ⟨some (fxTok 207 "b"), false⟩]⟩
    (some (fxDeduced fxInt)) [some (fxDeduced fxInt), some (fxDeduced fxInt)] (some fxF3)

def fxChain : SymbolicFunctionData :=
  .mk (fxTok 201 "f") ⟨[⟨some (fxTok 205 "a"), false⟩]⟩
    (some (fxDeduced fxBool)) [some (fxDeduced fxInt)] (some fxF2chain)

/-- Witness for C1 at concrete inputs: the three insertions produce the
chain `f(a) → f(a,b) → f(a,b,c)` and a 2-argument call binds the middle
overload. -/
theorem claim_C1_witness :
    mapGet (insertSymbolicObject
        (insertSymbolicObject (insertSymbolicObject [] (.funcSym fxF1)).map
          (.funcSym fxF2)).map
        (.funcSym fxF3)).map "f"
      = some (.funcSym fxChain)
    ∧ checkFunctionMatch fxCallG [some (fxDeduced fxInt), some (fxDeduced fxInt)]
        fxChain none
      = ⟨[], [⟨fxF2chain, fxTok 404 "g"⟩], some (fxDeduced fxInt)⟩ := by
  have h := claim_C1_overload_order []
    (fxTok 201 "f") (fxTok 202 "f") (fxTok 203 "f")
    ⟨[⟨some (fxTok 205 "a"), false⟩]⟩
    ⟨[⟨some (fxTok 206 "a"), false⟩, ⟨some (fxTok 207 "b"), false⟩]⟩
    ⟨[⟨some (fxTok 208 "a"), false⟩, ⟨some (fxTok 209 "b"), false⟩,
      ⟨some (fxTok 210 "c"), false⟩]⟩
    (some (fxDeduced fxBool)) (some (fxDeduced fxInt)) (some (fxDeduced fxString))
    [some (fxDeduced fxInt)] [some (fxDeduced fxInt), some (fxDeduced fxInt)]
    [some (fxDeduced fxInt), some (fxDeduced fxInt), some (fxDeduced fxInt)]
    rfl rfl rfl rfl rfl rfl rfl
  constructor
  · have h1 := h.1
    simpa [fxF1, fxF2, fxF3, fxChain, fxF2chain] using h1
  · have h2 := h.2 fxCallG (fxDeduced fxInt) (fxDeduced fxInt)
      (fxDeduced fxInt) (fxDeduced fxInt) rfl fxMatch_int_int fxMatch_int_int
    simpa [fxChain, fxF2chain, fxF3, getIdentifierInFuncOrConstructor, fxCallG]
      using h2

end AngelLsp
